import Mathlib

/-
  Verification development for the Votara backend (votara-be).

  The definitions in this file are a shallow embedding of the TypeScript
  source under src/votara-be/src: the Prisma-backed metadata store is a
  record of lists, each Express handler and chain-event handler becomes a
  pure function from the store (plus request data and external-call
  outcomes, passed as parameters) to an HTTP status code and a new store.
  Machine integers of the source (uint256, uint8) are modelled as Nat.
-/

namespace Votara

/-- Poll lifecycle status, matching the status column values used by the
backend: DRAFT, ACTIVE, ENDED. -/
inductive PollStatus where
  | DRAFT
  | ACTIVE
  | ENDED
deriving DecidableEq

/-- One poll option as stored in the options JSON column: an id in 0..255
and a label. -/
structure PollOption where
  id : Nat
  label : String
deriving DecidableEq

/-- A row of the poll table. Field names follow the Prisma model used by
the controllers: groupId is stored as a decimal string with placeholder
value 0, contractTxHash is the activation transaction hash, groupMembers
is the roster of identity commitments as decimal strings. -/
structure Poll where
  id : String
  groupId : String
  title : String
  description : Option String
  options : List PollOption
  startTime : Nat
  endTime : Nat
  status : PollStatus
  contractTxHash : Option String
  createdBy : String
  groupMembers : List String
  createdAt : Nat
  updatedAt : Nat
deriving DecidableEq

/-- A row of the poll_vote table: pollId foreign key, optionIndex, and the
nullifier hash stored as the hex string the handler builds. -/
structure PollVote where
  pollId : String
  optionIndex : Nat
  nullifierHash : String
deriving DecidableEq

/-- A row of the user table as written by the auth middleware. -/
structure User where
  address : String
  privyUserId : Option String
  farcasterFid : Option String
  email : Option String
  createdAt : Nat
  updatedAt : Nat
deriving DecidableEq

/-- The metadata store: the poll, poll_vote and user tables. -/
structure Store where
  polls : List Poll
  votes : List PollVote
  users : List User
deriving DecidableEq

/-- Well-formedness carried by the database schema: the unique index on
poll.id means no two poll rows share an id. -/
def Store.WF (s : Store) : Prop :=
  s.polls.Pairwise (fun a b => a.id ≠ b.id)

/-- Lookup of prisma.poll.findUnique on the id column. -/
def findPoll (s : Store) (pollId : String) : Option Poll :=
  s.polls.find? (fun p => p.id == pollId)

/-- The hex string the VoteCast handler stores for a nullifier: the
source writes a 0x prefix followed by the bigint rendered in base 16
(toString with radix 16, lowercase, no padding), which Nat.toDigits 16
reproduces. -/
def nullifierKey (n : Nat) : String :=
  "0x" ++ String.mk (Nat.toDigits 16 n)

/-- Decoded PollActivated(bytes32 indexed pollId, uint256 groupId) log
together with its transaction hash. -/
structure PollActivatedEvent where
  pollId : String
  groupId : Nat
  transactionHash : String
deriving DecidableEq

/-- Decoded VoteCast(bytes32 indexed pollId, uint8 optionIndex,
uint256 nullifierHash) log. -/
structure VoteCastEvent where
  pollId : String
  optionIndex : Nat
  nullifierHash : Nat
deriving DecidableEq

/-- Decoded PollCreated(bytes32 indexed pollId, address indexed creator)
log. -/
structure PollCreatedEvent where
  pollId : String
  creator : String
deriving DecidableEq

/-- The poll row update performed by handlePollActivatedEvent when it
decides to activate: status ACTIVE, groupId set to the decimal rendering
of the event groupId, contractTxHash set, updatedAt refreshed. -/
def activatePollRow (p : Poll) (e : PollActivatedEvent) (now : Nat) : Poll :=
  { p with
      status := PollStatus.ACTIVE
      groupId := toString e.groupId
      contractTxHash := some e.transactionHash
      updatedAt := now }

/-- Embedding of handlePollActivatedEvent (services/eventListener.ts):
find the poll by id; if absent, skip; if its status is already ACTIVE,
skip; otherwise update it to ACTIVE with the event groupId and the
transaction hash. -/
def handlePollActivatedEvent (s : Store) (e : PollActivatedEvent) (now : Nat) : Store :=
  match findPoll s e.pollId with
  | none => s
  | some poll =>
    if poll.status = PollStatus.ACTIVE then s
    else
      { s with
          polls := s.polls.map (fun p =>
            if p.id == e.pollId then activatePollRow p e now else p) }

/-- The poll_vote row inserted by handleVoteCastEvent. -/
def mkVoteRow (e : VoteCastEvent) : PollVote :=
  { pollId := e.pollId
    optionIndex := e.optionIndex
    nullifierHash := nullifierKey e.nullifierHash }

/-- Embedding of handleVoteCastEvent (services/eventListener.ts): look up
an existing vote row by the nullifier hex string; if found, skip;
otherwise insert a row with the event pollId, optionIndex and nullifier.
The handler performs no range check on optionIndex and no existence check
on the poll. -/
def handleVoteCastEvent (s : Store) (e : VoteCastEvent) : Store :=
  match s.votes.find? (fun v => v.nullifierHash == nullifierKey e.nullifierHash) with
  | some _ => s
  | none => { s with votes := s.votes ++ [mkVoteRow e] }

/-- Embedding of handlePollCreatedEvent (services/eventListener.ts): the
handler only reads the poll table and logs; it inserts and updates
nothing. -/
def handlePollCreatedEvent (s : Store) (_e : PollCreatedEvent) : Store :=
  s

/-- Request body of POST /polls. The two time fields are the instants the
datetime strings denote; the zod schema validates only the string format
of each, never their order. -/
structure CreatePollBody where
  title : String
  description : Option String
  options : List PollOption
  startTime : Nat
  endTime : Nat
deriving DecidableEq

/-- Embedding of createPollSchema (controllers/votesController.ts): title
length 1..200, between 2 and 256 options, each option id an integer in
0..255 with a non-empty label, and both time fields well-formed datetime
strings. There is no constraint relating startTime to endTime. -/
def createPollSchemaValid (b : CreatePollBody) : Bool :=
  decide (1 ≤ b.title.length) && decide (b.title.length ≤ 200) &&
  decide (2 ≤ b.options.length) && decide (b.options.length ≤ 256) &&
  b.options.all (fun o => decide (o.id ≤ 255) && decide (1 ≤ o.label.length))

/-- The DRAFT row inserted by createPoll for an authenticated creator. -/
def newDraftPoll (addr : String) (b : CreatePollBody) (pollId : String) (now : Nat) : Poll :=
  { id := pollId
    groupId := "0"
    title := b.title
    description := b.description
    options := b.options
    startTime := b.startTime
    endTime := b.endTime
    status := PollStatus.DRAFT
    contractTxHash := none
    createdBy := addr
    groupMembers := []
    createdAt := now
    updatedAt := now }

/-- Embedding of createPoll (controllers/votesController.ts): 401 without
an authenticated user, 400 on a zod validation failure; otherwise a row
with the freshly generated pollId is inserted as DRAFT with groupId 0 and
an empty roster, answering 201. The unique index on poll.id turns an
insert with an existing id into a thrown error, which the catch maps to
500 with no row written. -/
def createPoll (s : Store) (user : Option String) (b : CreatePollBody)
    (pollId : String) (now : Nat) : Nat × Store :=
  match user with
  | none => (401, s)
  | some addr =>
    if createPollSchemaValid b then
      if (findPoll s pollId).isSome then (500, s)
      else (201, { s with polls := s.polls ++ [newDraftPoll addr b pollId now] })
    else (400, s)

/-- The toLowerCase call of the source on an ASCII ledger address,
expressed over the character list so that it evaluates inside the
kernel. -/
def lowerString (s : String) : String :=
  String.mk (s.data.map Char.toLower)

/-- Request body of PUT /polls, after updatePollSchema: optional title,
optional description, optional active flag. -/
structure UpdatePollBody where
  title : Option String
  description : Option String
  active : Option Bool
deriving DecidableEq

/-- Embedding of updatePollSchema: a present title must have length
1..200; description and active are unconstrained. -/
def updatePollSchemaValid (b : UpdatePollBody) : Bool :=
  b.title.all (fun t => decide (1 ≤ t.length) && decide (t.length ≤ 200))

/-- The field update performed by updatePoll on the matched row: present
title and description keys overwrite, absent keys leave the column
untouched, and updatedAt is refreshed. -/
def applyPollUpdate (p : Poll) (b : UpdatePollBody) (now : Nat) : Poll :=
  { p with
      title := b.title.getD p.title
      description := match b.description with
        | some d => some d
        | none => p.description
      updatedAt := now }

/-- Embedding of updatePoll (controllers/votesController.ts): 401 without
a user, 400 on a schema failure, 404 when the poll is absent, 403 when
the requester (lowercased) is not the creator (lowercased), 400 when the
poll status is not DRAFT, otherwise the title and description update is
applied and 200 returned. The poll model has no active column, so a
request carrying the active key makes the prisma update throw, which the
catch maps to 500 with nothing written. -/
def updatePoll (s : Store) (user : Option String) (pollId : String)
    (b : UpdatePollBody) (now : Nat) : Nat × Store :=
  match user with
  | none => (401, s)
  | some addr =>
    if updatePollSchemaValid b then
      match findPoll s pollId with
      | none => (404, s)
      | some poll =>
        if lowerString poll.createdBy ≠ lowerString addr then (403, s)
        else if poll.status ≠ PollStatus.DRAFT then (400, s)
        else if b.active.isSome then (500, s)
        else
          (200, { s with polls := s.polls.map (fun p =>
            if p.id == pollId then applyPollUpdate p b now else p) })
    else (400, s)

/-- Request body of POST /polls/:pollId/create-group. -/
structure CreateGroupBody where
  eligibleAddresses : List String
deriving DecidableEq

/-- Embedding of createGroupSchema: at least one eligible address. -/
def createGroupSchemaValid (b : CreateGroupBody) : Bool :=
  decide (1 ≤ b.eligibleAddresses.length)

/-- Embedding of createPollGroup (controllers/votesController.ts): 401
without a user, 400 on a schema failure, 404 when the poll is absent, 403
when the requester is not the creator (exact string comparison here), 400
when the poll status is ACTIVE. Otherwise createGroupWithMembers runs:
commitment computes each identity commitment and the chain parameter is
the outcome of the two on-chain transactions, none meaning a throw mapped
to 500 with nothing written. On success the handler overwrites the
groupMembers column of the poll with the decimal renderings of the
commitments and answers 200. No check that the roster is already set is
performed, and neither status nor groupId is written here. -/
def createPollGroup (s : Store) (user : Option String) (pollId : String)
    (b : CreateGroupBody) (commitment : String → Nat)
    (chain : Option (Nat × String)) : Nat × Store :=
  match user with
  | none => (401, s)
  | some addr =>
    if createGroupSchemaValid b then
      match findPoll s pollId with
      | none => (404, s)
      | some poll =>
        if poll.createdBy ≠ addr then (403, s)
        else if poll.status = PollStatus.ACTIVE then (400, s)
        else
          match chain with
          | none => (500, s)
          | some _ =>
            let groupMembersArray :=
              b.eligibleAddresses.map (fun a => toString (commitment a))
            (200, { s with polls := s.polls.map (fun p =>
              if p.id == pollId then { p with groupMembers := groupMembersArray } else p) })
    else (400, s)

/-- One entry of the results array of GET /polls/:pollId/results. -/
structure ResultEntry where
  optionId : Nat
  optionLabel : String
  votes : Nat
deriving DecidableEq

/-- The payload of GET /polls/:pollId/results that the claims are about:
the per-option entries and totalVotes. -/
structure PollResultsData where
  results : List ResultEntry
  totalVotes : Nat
deriving DecidableEq

/-- Assignment to one key of the voteCounts record. -/
def setCount (m : Nat → Option Nat) (k v : Nat) : Nat → Option Nat :=
  fun x => if x = k then some v else m x

/-- The options.forEach loop of getPollResults: a record with one key per
option id, each initialised to zero. -/
def initCounts (opts : List PollOption) : Nat → Option Nat :=
  opts.foldl (fun m o => setCount m o.id 0) (fun _ => none)

/-- The poll.votes.forEach loop of getPollResults: a vote increments the
counter at its optionIndex only when that key exists in the record. -/
def tallyVotes (m : Nat → Option Nat) (vs : List PollVote) : Nat → Option Nat :=
  vs.foldl (fun m v =>
    match m v.optionIndex with
    | some c => setCount m v.optionIndex (c + 1)
    | none => m) m

/-- Embedding of getPollResults (controllers/votesController.ts): 404 when
the poll is absent; otherwise the vote rows of the poll are loaded, the
per-option counters are built by the two forEach loops, the results array
reads each counter back (with 0 for a missing value) and totalVotes is the
number of loaded vote rows. -/
def getPollResults (s : Store) (pollId : String) : Nat × Option PollResultsData :=
  match findPoll s pollId with
  | none => (404, none)
  | some poll =>
    let pollVotes := s.votes.filter (fun v => v.pollId == poll.id)
    let counts := tallyVotes (initCounts poll.options) pollVotes
    (200, some
      { results := poll.options.map (fun o =>
          { optionId := o.id, optionLabel := o.label, votes := (counts o.id).getD 0 })
        totalVotes := pollVotes.length })

/-- One linked account of a Privy user, as consumed by getOrCreateUser. -/
structure PrivyAccount where
  type : String
  address : String
  fid : Option String
deriving DecidableEq

/-- The external Privy user record returned by verifyPrivyToken. -/
structure PrivyUser where
  id : String
  linkedAccounts : List PrivyAccount
  email : Option String
deriving DecidableEq

/-- The startsWith check of the source on the Authorization header,
expressed over the character list so that it evaluates inside the
kernel. -/
def startsWithBearer (h : String) : Bool :=
  h.data.take 7 == "Bearer ".data

/-- Embedding of getOrCreateUser (middleware/auth.ts): find the linked
wallet account (throwing, modelled as none, when absent), lowercase its
address, then upsert the user row. On update, absent farcaster or email
data leaves the column untouched and updatedAt is refreshed; on create,
the row is inserted with the extracted fields. -/
def getOrCreateUser (s : Store) (pu : PrivyUser) (now : Nat) : Option (User × Store) :=
  match pu.linkedAccounts.find? (fun a => a.type == "wallet") with
  | none => none
  | some w =>
    let address := lowerString w.address
    let farcaster := pu.linkedAccounts.find? (fun a => a.type == "farcaster")
    match s.users.find? (fun u => u.address == address) with
    | some u =>
      let u2 : User :=
        { u with
            farcasterFid := match farcaster.bind (fun a => a.fid) with
              | some fid => some fid
              | none => u.farcasterFid
            email := match pu.email with
              | some em => some em
              | none => u.email
            updatedAt := now }
      some (u2, { s with users := s.users.map (fun x =>
        if x.address == address then u2 else x) })
    | none =>
      let u : User :=
        { address := address
          privyUserId := some pu.id
          farcasterFid := farcaster.bind (fun a => a.fid)
          email := pu.email
          createdAt := now
          updatedAt := now }
      some (u, { s with users := s.users ++ [u] })

/-- Mask selecting the low 64 bits of a lane. -/
def mask64 : Nat := 2 ^ 64 - 1

/-- Left rotation of a 64-bit lane. -/
def rotl64 (x n : Nat) : Nat :=
  ((x <<< n) ||| (x >>> (64 - n))) &&& mask64

/-- One step of the degree-8 LFSR that generates the keccak round
constant bits. -/
def keccakLFSRStep (r : Nat) : Nat :=
  if r &&& 0x80 = 0 then (r <<< 1) &&& 0xFF
  else ((r <<< 1) ^^^ 0x71) &&& 0xFF

/-- The LFSR register after t steps from its initial value 1; its low bit
is the bit rc(t) of the specification. -/
def keccakLFSRAt (t : Nat) : Nat :=
  Nat.rec 1 (fun _ r => keccakLFSRStep r) t

/-- Round constant of round i: bit 2 to the j minus 1 is rc(7 i + j). -/
def keccakRoundConstant (i : Nat) : Nat :=
  (List.range 7).foldl
    (fun acc j => acc ||| ((keccakLFSRAt (7 * i + j) &&& 1) <<< (2 ^ j - 1))) 0

/-- Round constants of the keccak-f permutation with 1600-bit state. -/
def keccakRC : List Nat :=
  (List.range 24).map keccakRoundConstant

/-- Rotation offsets of the rho step, indexed by lane index x plus five
times y: offset (t plus 1)(t plus 2)/2 at the t-th coordinate of the walk
that starts at column 1 row 0 and moves by (x, y) to (y, 2x + 3y). -/
def keccakRho : List Nat :=
  let pairs := ((List.range 24).foldl
    (fun st t =>
      ((st.1.2, (2 * st.1.1 + 3 * st.1.2) % 5),
        (st.1.1 + 5 * st.1.2, ((t + 1) * (t + 2) / 2) % 64) :: st.2))
    (((1, 0) : Nat × Nat), ([(0, 0)] : List (Nat × Nat)))).2
  (List.range 25).map (fun i => ((pairs.find? (fun p => p.1 == i)).map Prod.snd).getD 0)

/-- Theta step of keccak-f on a state of 25 lanes indexed x plus five
times y. -/
def keccakTheta (A : List Nat) : List Nat :=
  let C := (List.range 5).map (fun x =>
    A.getD x 0 ^^^ A.getD (x + 5) 0 ^^^ A.getD (x + 10) 0 ^^^
      A.getD (x + 15) 0 ^^^ A.getD (x + 20) 0)
  let D := (List.range 5).map (fun x =>
    C.getD ((x + 4) % 5) 0 ^^^ rotl64 (C.getD ((x + 1) % 5) 0) 1)
  (List.range 25).map (fun i => A.getD i 0 ^^^ D.getD (i % 5) 0)

/-- Combined rho and pi steps: the lane at target coordinates is the
rotated source lane, the source column being recovered from the target
coordinates. -/
def keccakRhoPi (A : List Nat) : List Nat :=
  (List.range 25).map (fun t =>
    let tx := t % 5
    let ty := t / 5
    let src := (tx + 3 * ty) % 5 + 5 * tx
    rotl64 (A.getD src 0) (keccakRho.getD src 0))

/-- Chi step of keccak-f. -/
def keccakChi (B : List Nat) : List Nat :=
  (List.range 25).map (fun t =>
    let x := t % 5
    let y := t / 5
    B.getD t 0 ^^^ ((B.getD ((x + 1) % 5 + 5 * y) 0 ^^^ mask64) &&&
      B.getD ((x + 2) % 5 + 5 * y) 0))

/-- One round of keccak-f: theta, rho, pi, chi, then iota on lane zero. -/
def keccakRound (A : List Nat) (rc : Nat) : List Nat :=
  let A1 := keccakChi (keccakRhoPi (keccakTheta A))
  (List.range 25).map (fun i => if i = 0 then A1.getD 0 0 ^^^ rc else A1.getD i 0)

/-- The keccak-f permutation with 1600-bit state: 24 rounds. -/
def keccakF (A : List Nat) : List Nat :=
  keccakRC.foldl keccakRound A

/-- Keccak-256 of a message of fewer than 135 bytes (a single block at
rate 136, with the original keccak multi-rate padding bytes 01 and 80 as
used by the EVM and by the keccak256 function of viem): pad, pack into 17
little-endian 64-bit lanes, absorb into the zero state, permute, and read
the first 32 bytes of the state as a big-endian integer. -/
def keccak256Bytes (msg : List Nat) : Nat :=
  let padded := msg ++ [0x01] ++ List.replicate (134 - msg.length) 0 ++ [0x80]
  let lanes := (List.range 17).map (fun j =>
    (List.range 8).foldl (fun acc k => acc ||| (padded.getD (8 * j + k) 0 <<< (8 * k))) 0)
  let st := keccakF (lanes ++ List.replicate 8 0)
  (List.range 32).foldl (fun acc i =>
    acc * 256 + ((st.getD (i / 8) 0 >>> (8 * (i % 8))) &&& 0xff)) 0

/-- Order of the BN254 scalar field, as the SNARK_SCALAR_FIELD constant of
the semaphore service. -/
def SNARK_SCALAR_FIELD : Nat :=
  21888242871839275222246405745257275088548364400416034343698204186575808495617

/-- Embedding of the Poseidon based addressToIdentityCommitment variant of
the semaphore service: hash the address value with poseidon1 (an external
library function, taken here as a parameter) and reduce modulo the scalar
field when the hash is not already below it. -/
def addressToIdentityCommitmentPoseidon (poseidon1 : Nat → Nat) (addr : Nat) : Nat :=
  let commitment := poseidon1 addr
  if commitment ≥ SNARK_SCALAR_FIELD then commitment % SNARK_SCALAR_FIELD
  else commitment

/-- The twenty bytes of a ledger address, most significant first, as
produced by toBytes on the lowercased hex string. -/
def addressBytes (a : Nat) : List Nat :=
  (List.range 20).map (fun i => (a >>> (8 * (19 - i))) &&& 0xff)

/-- Embedding of the keccak256 based addressToIdentityCommitment variant
of the semaphore service: the keccak-256 digest of the address bytes read
as a 256-bit integer, with no reduction modulo the scalar field. -/
def addressToIdentityCommitmentKeccak (addr : Nat) : Nat :=
  keccak256Bytes (addressBytes addr)

/-- Embedding of authMiddleware (middleware/auth.ts): reject with 401 when
the Authorization header is missing or does not carry a Bearer token, or
when the external Privy verification (whose outcome for this token is the
privyUser parameter) fails; otherwise run getOrCreateUser against the
store and pass the resulting user to the handler. A none result means the
request was answered 401 with the store as returned. -/
def authMiddleware (s : Store) (authHeader : Option String)
    (privyUser : Option PrivyUser) (now : Nat) : Option User × Store :=
  match authHeader with
  | none => (none, s)
  | some h =>
    if startsWithBearer h then
      match privyUser with
      | none => (none, s)
      | some pu =>
        match getOrCreateUser s pu now with
        | none => (none, s)
        | some (u, s2) => (some u, s2)
    else (none, s)

/-- With the unique index on poll.id, the findUnique lookup of any member
row by its own id returns exactly that row. -/
theorem find_poll_of_mem {l : List Poll} (hwf : l.Pairwise (fun a b => a.id ≠ b.id))
    {p : Poll} (hp : p ∈ l) {pid : String} (hid : p.id = pid) :
    l.find? (fun q => q.id == pid) = some p := by
  induction l with
  | nil => cases hp
  | cons a t ih =>
    rcases List.mem_cons.mp hp with h | h
    · subst h
      exact List.find?_cons_of_pos t (by simp [hid])
    · have hne : a.id ≠ p.id := (List.pairwise_cons.mp hwf).1 p h
      rw [List.find?_cons_of_neg t (by simp [hid ▸ hne])]
      exact ih (List.pairwise_cons.mp hwf).2 h

/-- A lookup over a list holding no matching element reduces to a lookup
over whatever is appended to it. -/
theorem find_append_of_none {α : Type} {l₁ l₂ : List α} {p : α → Bool}
    (h : l₁.find? p = none) : (l₁ ++ l₂).find? p = l₂.find? p := by
  rw [List.find?_append, h, Option.none_or]

/-- Filling the counters over a list of options sets the counter of every
listed option id to zero. -/
theorem initCounts_foldl_eq_zero (opts : List PollOption) (m : Nat → Option Nat) (k : Nat)
    (h : m k = some 0 ∨ ∃ o ∈ opts, o.id = k) :
    (opts.foldl (fun m o => setCount m o.id 0) m) k = some 0 := by
  induction opts generalizing m with
  | nil =>
    rcases h with h | ⟨o, ho, _⟩
    · simpa using h
    · cases ho
  | cons a t ih =>
    refine ih (setCount m a.id 0) ?_
    by_cases hak : a.id = k
    · exact Or.inl (by simp [setCount, hak])
    · rcases h with h | ⟨o, ho, hid⟩
      · refine Or.inl ?_
        simp only [setCount]
        rw [if_neg (fun hk : k = a.id => hak hk.symm)]
        exact h
      · rcases List.mem_cons.mp ho with rfl | ho
        · exact absurd hid hak
        · exact Or.inr ⟨o, ho, hid⟩

/-- Tallying the vote rows on top of a counter map increments the counter
at key k once per row whose optionIndex is k. -/
theorem tallyVotes_eq (vs : List PollVote) (m : Nat → Option Nat) (k c : Nat)
    (hm : m k = some c) :
    tallyVotes m vs k = some (c + (vs.filter (fun v => v.optionIndex == k)).length) := by
  induction vs generalizing m c with
  | nil => simpa [tallyVotes] using hm
  | cons v t ih =>
    by_cases hvk : v.optionIndex = k
    · have hstep : (match m v.optionIndex with
        | some c => setCount m v.optionIndex (c + 1)
        | none => m) = setCount m k (c + 1) := by
        rw [hvk, hm]
      have : tallyVotes (setCount m k (c + 1)) t k
          = some ((c + 1) + (t.filter (fun v => v.optionIndex == k)).length) :=
        ih (setCount m k (c + 1)) (c + 1) (by simp [setCount])
      simp only [tallyVotes, List.foldl_cons] at *
      rw [hstep, this, List.filter_cons_of_pos (by simp [hvk]), List.length_cons]
      exact congrArg some (by omega)
    · have hkeep : (match m v.optionIndex with
        | some c => setCount m v.optionIndex (c + 1)
        | none => m) k = some c := by
        cases hmv : m v.optionIndex with
        | none => exact hm
        | some c2 =>
          simp only [setCount]
          rw [if_neg (fun hk : k = v.optionIndex => hvk hk.symm)]
          exact hm
      have step := ih (match m v.optionIndex with
        | some c => setCount m v.optionIndex (c + 1)
        | none => m) c hkeep
      simp only [tallyVotes, List.foldl_cons] at *
      rw [step, List.filter_cons_of_neg (by simp [hvk])]

/-- The store-mutating operations of the backend: the three authenticated
poll endpoints, the auth middleware itself, and the three chain-event
handlers. Read endpoints issue no store writes and are omitted. -/
inductive Op where
  | apiCreatePoll (user : Option String) (b : CreatePollBody) (pollId : String) (now : Nat)
  | apiUpdatePoll (user : Option String) (pollId : String) (b : UpdatePollBody) (now : Nat)
  | apiCreateGroup (user : Option String) (pollId : String) (b : CreateGroupBody)
      (commitment : String → Nat) (chain : Option (Nat × String))
  | apiAuth (authHeader : Option String) (privyUser : Option PrivyUser) (now : Nat)
  | chainPollCreated (e : PollCreatedEvent)
  | chainPollActivated (e : PollActivatedEvent) (now : Nat)
  | chainVoteCast (e : VoteCastEvent)

/-- The store reached by running one operation. -/
def Op.apply : Op → Store → Store
  | Op.apiCreatePoll u b pid now, s => (createPoll s u b pid now).2
  | Op.apiUpdatePoll u pid b now, s => (updatePoll s u pid b now).2
  | Op.apiCreateGroup u pid b f ch, s => (createPollGroup s u pid b f ch).2
  | Op.apiAuth hd pu now, s => (authMiddleware s hd pu now).2
  | Op.chainPollCreated e, s => handlePollCreatedEvent s e
  | Op.chainPollActivated e now, s => handlePollActivatedEvent s e now
  | Op.chainVoteCast e, s => handleVoteCastEvent s e

/-- Status evolution relation between a store and its successor: every
poll row afterwards either descends from a row with the same id whose
status it keeps or upgrades to ACTIVE from a non ACTIVE status, or is a
freshly inserted DRAFT with a previously unused id. -/
def StatusStep (s s2 : Store) : Prop :=
  ∀ q ∈ s2.polls,
    (∃ p ∈ s.polls, p.id = q.id ∧
      (q.status = p.status ∨ (p.status ≠ PollStatus.ACTIVE ∧ q.status = PollStatus.ACTIVE))) ∨
    (q.status = PollStatus.DRAFT ∧ ∀ p ∈ s.polls, p.id ≠ q.id)

theorem statusStep_refl (s : Store) : StatusStep s s :=
  fun q hq => Or.inl ⟨q, hq, rfl, Or.inl rfl⟩

theorem statusStep_of_polls_eq {s s2 : Store} (h : s2.polls = s.polls) :
    StatusStep s s2 := by
  intro q hq
  rw [h] at hq
  exact Or.inl ⟨q, hq, rfl, Or.inl rfl⟩

/-- A row update keyed on an id that preserves id and status yields a
legal status step. -/
theorem statusStep_mapUpdate (s : Store) (pid : String) (g : Poll → Poll)
    (hid : ∀ p, (g p).id = p.id) (hst : ∀ p, (g p).status = p.status) :
    StatusStep s { s with polls := s.polls.map (fun p => if p.id == pid then g p else p) } := by
  intro q hq
  rcases List.mem_map.mp hq with ⟨p, hp, hfq⟩
  by_cases hb : (p.id == pid) = true
  · rw [if_pos hb] at hfq
    exact Or.inl ⟨p, hp, by rw [← hfq, hid], Or.inl (by rw [← hfq, hst])⟩
  · rw [if_neg hb] at hfq
    exact Or.inl ⟨p, hp, by rw [hfq], Or.inl (by rw [hfq])⟩

theorem statusStep_createPoll (s : Store) (u : Option String) (b : CreatePollBody)
    (pid : String) (now : Nat) : StatusStep s (createPoll s u b pid now).2 := by
  unfold createPoll
  split
  · exact statusStep_refl s
  next addr =>
    split
    next =>
      split
      next => exact statusStep_refl s
      next hex =>
        intro q hq
        rcases List.mem_append.mp hq with h | h
        · exact Or.inl ⟨q, h, rfl, Or.inl rfl⟩
        · have hq2 : q = newDraftPoll addr b pid now := by simpa using h
          subst hq2
          refine Or.inr ⟨rfl, fun p hp hcontra => ?_⟩
          have hnone : findPoll s pid = none := by
            cases hfp : findPoll s pid with
            | none => rfl
            | some _ => rw [hfp] at hex; exact absurd rfl hex
          exact List.find?_eq_none.mp hnone p hp (by simpa [newDraftPoll] using hcontra)
    next => exact statusStep_refl s

theorem statusStep_updatePoll (s : Store) (u : Option String) (pid : String)
    (b : UpdatePollBody) (now : Nat) : StatusStep s (updatePoll s u pid b now).2 := by
  unfold updatePoll
  split
  · exact statusStep_refl s
  next addr =>
    split
    next =>
      split
      next => exact statusStep_refl s
      next poll =>
        split
        next => exact statusStep_refl s
        next =>
          split
          next => exact statusStep_refl s
          next =>
            split
            next => exact statusStep_refl s
            next =>
              exact statusStep_mapUpdate s pid (fun p => applyPollUpdate p b now)
                (fun _ => rfl) (fun _ => rfl)
    next => exact statusStep_refl s

theorem statusStep_createPollGroup (s : Store) (u : Option String) (pid : String)
    (b : CreateGroupBody) (f : String → Nat) (ch : Option (Nat × String)) :
    StatusStep s (createPollGroup s u pid b f ch).2 := by
  unfold createPollGroup
  split
  · exact statusStep_refl s
  next addr =>
    split
    next =>
      split
      next => exact statusStep_refl s
      next poll =>
        split
        next => exact statusStep_refl s
        next =>
          split
          next => exact statusStep_refl s
          next =>
            split
            next => exact statusStep_refl s
            next =>
              exact statusStep_mapUpdate s pid
                (fun p => { p with groupMembers :=
                  b.eligibleAddresses.map (fun a => toString (f a)) })
                (fun _ => rfl) (fun _ => rfl)
    next => exact statusStep_refl s

theorem getOrCreateUser_polls (s : Store) (pu : PrivyUser) (now : Nat)
    (u : User) (s2 : Store) (h : getOrCreateUser s pu now = some (u, s2)) :
    s2.polls = s.polls := by
  unfold getOrCreateUser at h
  cases hw : pu.linkedAccounts.find? (fun a => a.type == "wallet") with
  | none => rw [hw] at h; cases h
  | some w =>
    rw [hw] at h
    cases hu : s.users.find? (fun x => x.address == lowerString w.address) with
    | none =>
      simp only [hu] at h
      cases h
      rfl
    | some u0 =>
      simp only [hu] at h
      cases h
      rfl

theorem statusStep_authMiddleware (s : Store) (hd : Option String)
    (pu : Option PrivyUser) (now : Nat) :
    StatusStep s (authMiddleware s hd pu now).2 := by
  unfold authMiddleware
  split
  · exact statusStep_refl s
  next h =>
    split
    next =>
      split
      next => exact statusStep_refl s
      next p =>
        split
        next => exact statusStep_refl s
        next u s2 hg =>
          exact statusStep_of_polls_eq (getOrCreateUser_polls s p now u s2 hg)
    next => exact statusStep_refl s

theorem handleVoteCastEvent_polls (s : Store) (e : VoteCastEvent) :
    (handleVoteCastEvent s e).polls = s.polls := by
  unfold handleVoteCastEvent
  cases s.votes.find? (fun v => v.nullifierHash == nullifierKey e.nullifierHash) <;> rfl

theorem statusStep_handleActivated (s : Store) (e : PollActivatedEvent) (now : Nat)
    (hwf : s.WF) : StatusStep s (handlePollActivatedEvent s e now) := by
  unfold handlePollActivatedEvent
  split
  next => exact statusStep_refl s
  next poll hfp =>
    split
    next => exact statusStep_refl s
    next hst =>
      intro q hq
      rcases List.mem_map.mp hq with ⟨p, hp, hfq⟩
      by_cases hb : (p.id == e.pollId) = true
      · have hpid : p.id = e.pollId := by simpa using hb
        have hfound : findPoll s e.pollId = some p := find_poll_of_mem hwf hp hpid
        rw [hfp] at hfound
        injection hfound with hpe
        rw [if_pos hb] at hfq
        refine Or.inl ⟨p, hp, by rw [← hfq]; rfl, Or.inr ⟨by rw [← hpe]; exact hst, ?_⟩⟩
        rw [← hfq]
        rfl
      · rw [if_neg hb] at hfq
        exact Or.inl ⟨p, hp, by rw [hfq], Or.inl (by rw [hfq])⟩

/-- A DRAFT poll row with two options, an empty roster and placeholder
groupId, as createPoll inserts it. -/
def pollA : Poll :=
  { id := "0xp1"
    groupId := "0"
    title := "T"
    description := none
    options := [{ id := 0, label := "yes" }, { id := 1, label := "no" }]
    startTime := 10
    endTime := 20
    status := PollStatus.DRAFT
    contractTxHash := none
    createdBy := "0xa"
    groupMembers := []
    createdAt := 1
    updatedAt := 1 }

/-- The same poll after its lifecycle has ended. -/
def pollEnded : Poll :=
  { pollA with status := PollStatus.ENDED }

/-- The same DRAFT poll with a roster already stored. -/
def pollRoster : Poll :=
  { pollA with groupMembers := ["11"] }

/-- The same poll in the ACTIVE state. -/
def pollActive : Poll :=
  { pollA with
      status := PollStatus.ACTIVE
      groupId := "42"
      groupMembers := ["11"]
      contractTxHash := some "0xtx" }

/-- A store holding nothing. -/
def emptyStore : Store := { polls := [], votes := [], users := [] }

/-- A store holding only the DRAFT poll. -/
def storeA : Store := { polls := [pollA], votes := [], users := [] }

/-- A store holding only the ENDED poll. -/
def storeEnded : Store := { polls := [pollEnded], votes := [], users := [] }

/-- A store holding only the DRAFT poll with a roster. -/
def storeRoster : Store := { polls := [pollRoster], votes := [], users := [] }

/-- A store holding only the ACTIVE poll. -/
def storeActive : Store := { polls := [pollActive], votes := [], users := [] }

/-- A PollActivated event aimed at the sample poll. -/
def evAct : PollActivatedEvent :=
  { pollId := "0xp1", groupId := 42, transactionHash := "0xtx" }

/-- A VoteCast event whose optionIndex 7 matches no option of the sample
poll. -/
def evVote7 : VoteCastEvent :=
  { pollId := "0xp1", optionIndex := 7, nullifierHash := 5 }

/-- A VoteCast event on option 1 of the sample poll. -/
def evVote1 : VoteCastEvent :=
  { pollId := "0xp1", optionIndex := 1, nullifierHash := 9 }

/-- C1 counterexample: the sample store holds a DRAFT poll whose roster is
empty, yet applying PollActivated activates it, leaving an ACTIVE poll
with an empty roster; the claim requires the row to stay unchanged in
this case. -/
theorem claim1_counterexample :
    pollA.status = PollStatus.DRAFT ∧
    pollA.groupMembers = [] ∧
    (handlePollActivatedEvent storeA evAct 2).polls.map Poll.status = [PollStatus.ACTIVE] ∧
    (handlePollActivatedEvent storeA evAct 2).polls.map Poll.groupMembers = [[]] := by
  decide

/-- C1 (amended): applying PollActivated sets status ACTIVE and records
the event groupId and transaction hash if and only if the poll exists and
its current status is not ACTIVE; when the poll is missing or already
ACTIVE the store is unchanged. Neither a DRAFT requirement nor a
non-empty roster is checked. -/
theorem claim1_theorem (s : Store) (e : PollActivatedEvent) (now : Nat) (hwf : s.WF) :
    (∀ p ∈ s.polls, p.id = e.pollId → p.status ≠ PollStatus.ACTIVE →
      (handlePollActivatedEvent s e now).polls =
        s.polls.map (fun q => if q.id == e.pollId then activatePollRow q e now else q)) ∧
    (∀ p ∈ s.polls, p.id = e.pollId → p.status = PollStatus.ACTIVE →
      handlePollActivatedEvent s e now = s) ∧
    ((∀ p ∈ s.polls, p.id ≠ e.pollId) → handlePollActivatedEvent s e now = s) := by
  refine ⟨?_, ?_, ?_⟩
  · intro p hp hid hst
    have hfind : findPoll s e.pollId = some p := find_poll_of_mem hwf hp hid
    simp only [handlePollActivatedEvent, hfind]
    rw [if_neg hst]
  · intro p hp hid hst
    have hfind : findPoll s e.pollId = some p := find_poll_of_mem hwf hp hid
    simp only [handlePollActivatedEvent, hfind]
    rw [if_pos hst]
  · intro hall
    have hnone : findPoll s e.pollId = none :=
      List.find?_eq_none.mpr (fun p hp => by simpa using hall p hp)
    simp only [handlePollActivatedEvent, hnone]

/-- C1 witness: the amended theorem applied to the concrete DRAFT store
and activation event. -/
theorem claim1_witness :
    Store.WF storeA ∧
    (handlePollActivatedEvent storeA evAct 2).polls =
      storeA.polls.map (fun q => if q.id == evAct.pollId then activatePollRow q evAct 2 else q) :=
  ⟨by simp [Store.WF, storeA],
   (claim1_theorem storeA evAct 2 (by simp [Store.WF, storeA])).1 pollA
     (by simp [storeA]) (by decide) (by decide)⟩

/-- C2: applying a VoteCast event whose nullifier is new, then a second
VoteCast event with the same nullifier, leaves exactly the row written by
the first event, and the second application is a no-op on the store. -/
theorem claim2_theorem (s : Store) (e e2 : VoteCastEvent)
    (hk : e2.nullifierHash = e.nullifierHash)
    (hfresh : ∀ v ∈ s.votes, v.nullifierHash ≠ nullifierKey e.nullifierHash) :
    handleVoteCastEvent (handleVoteCastEvent s e) e2 = handleVoteCastEvent s e ∧
    (handleVoteCastEvent s e).votes.filter
      (fun v => v.nullifierHash == nullifierKey e.nullifierHash) = [mkVoteRow e] := by
  have hnone : s.votes.find? (fun v => v.nullifierHash == nullifierKey e.nullifierHash) = none :=
    List.find?_eq_none.mpr (fun v hv => by simpa using hfresh v hv)
  have h1 : handleVoteCastEvent s e = { s with votes := s.votes ++ [mkVoteRow e] } := by
    simp only [handleVoteCastEvent, hnone]
  have hfind2 : (s.votes ++ [mkVoteRow e]).find?
      (fun v => v.nullifierHash == nullifierKey e.nullifierHash) = some (mkVoteRow e) := by
    rw [find_append_of_none hnone]
    exact List.find?_cons_of_pos _ (by simp [mkVoteRow])
  constructor
  · rw [h1]
    simp only [handleVoteCastEvent, hk]
    simp only [hfind2]
  · rw [h1]
    show (s.votes ++ [mkVoteRow e]).filter _ = _
    rw [List.filter_append]
    have hf : s.votes.filter (fun v => v.nullifierHash == nullifierKey e.nullifierHash) = [] :=
      List.filter_eq_nil_iff.mpr (fun v hv => by simpa using hfresh v hv)
    rw [hf]
    simp [mkVoteRow]

/-- C2 witness: the theorem applied to the empty store and a concrete
event replayed twice. -/
theorem claim2_witness :
    handleVoteCastEvent (handleVoteCastEvent emptyStore evVote1) evVote1 =
      handleVoteCastEvent emptyStore evVote1 ∧
    (handleVoteCastEvent emptyStore evVote1).votes.filter
      (fun v => v.nullifierHash == nullifierKey evVote1.nullifierHash) = [mkVoteRow evVote1] :=
  claim2_theorem emptyStore evVote1 evVote1 rfl (by simp [emptyStore])

/-- C3 counterexample: applying PollActivated to a poll whose status is
ENDED moves it back to ACTIVE, a reversal the claim rules out. -/
theorem claim3_counterexample :
    storeEnded.polls.map Poll.status = [PollStatus.ENDED] ∧
    (Op.apply (Op.chainPollActivated evAct 9) storeEnded).polls.map Poll.status =
      [PollStatus.ACTIVE] := by
  decide

/-- C3 (amended): across every modelled operation, a poll row either
keeps its status, or moves to ACTIVE from a non ACTIVE status (so both
DRAFT to ACTIVE and the backward ENDED to ACTIVE occur), or is a freshly
inserted DRAFT; no operation produces any other transition. -/
theorem claim3_theorem (op : Op) (s : Store) (hwf : s.WF) :
    StatusStep s (Op.apply op s) := by
  cases op with
  | apiCreatePoll u b pid now => exact statusStep_createPoll s u b pid now
  | apiUpdatePoll u pid b now => exact statusStep_updatePoll s u pid b now
  | apiCreateGroup u pid b f ch => exact statusStep_createPollGroup s u pid b f ch
  | apiAuth hd pu now => exact statusStep_authMiddleware s hd pu now
  | chainPollCreated e => exact statusStep_refl s
  | chainPollActivated e now => exact statusStep_handleActivated s e now hwf
  | chainVoteCast e => exact statusStep_of_polls_eq (handleVoteCastEvent_polls s e)

/-- C3 witness: the amended theorem applied to the ENDED store and the
activation operation. -/
theorem claim3_witness :
    Store.WF storeEnded ∧ StatusStep storeEnded (Op.apply (Op.chainPollActivated evAct 9) storeEnded) :=
  ⟨by simp [Store.WF, storeEnded],
   claim3_theorem (Op.chainPollActivated evAct 9) storeEnded (by simp [Store.WF, storeEnded])⟩

/-- C4 counterexample: a VoteCast whose optionIndex 7 matches no option of
the referenced poll still inserts a vote row; the claim requires it to be
rejected with no row written. -/
theorem claim4_counterexample :
    (∀ o ∈ pollA.options, o.id ≠ evVote7.optionIndex) ∧
    storeA.votes = [] ∧
    (handleVoteCastEvent storeA evVote7).votes = [mkVoteRow evVote7] := by
  decide

/-- C4 (amended): handleVoteCastEvent inserts the row for every event with
a fresh nullifier, regardless of whether optionIndex lies within the
referenced poll options and regardless of whether the poll exists; no
range check is performed. -/
theorem claim4_theorem (s : Store) (e : VoteCastEvent)
    (hfresh : ∀ v ∈ s.votes, v.nullifierHash ≠ nullifierKey e.nullifierHash) :
    (handleVoteCastEvent s e).votes = s.votes ++ [mkVoteRow e] := by
  have hnone : s.votes.find? (fun v => v.nullifierHash == nullifierKey e.nullifierHash) = none :=
    List.find?_eq_none.mpr (fun v hv => by simpa using hfresh v hv)
  simp only [handleVoteCastEvent, hnone]

/-- C4 witness: the amended theorem applied to the out-of-range event. -/
theorem claim4_witness :
    (handleVoteCastEvent storeA evVote7).votes = storeA.votes ++ [mkVoteRow evVote7] :=
  claim4_theorem storeA evVote7 (by simp [storeA])

/-- C5 counterexample: a create-group request on a DRAFT poll whose roster
is already stored succeeds with 200 and overwrites the stored commitments;
the claim requires a Conflict rejection leaving the roster unchanged. -/
theorem claim5_counterexample :
    pollRoster.status = PollStatus.DRAFT ∧
    pollRoster.groupMembers = ["11"] ∧
    (createPollGroup storeRoster (some "0xa") "0xp1"
      { eligibleAddresses := ["0xb"] } (fun _ => 22) (some (43, "0xtx2"))).1 = 200 ∧
    (createPollGroup storeRoster (some "0xa") "0xp1"
      { eligibleAddresses := ["0xb"] } (fun _ => 22) (some (43, "0xtx2"))).2.polls.map
        Poll.groupMembers = [["22"]] := by
  decide

/-- C5 (amended): createPollGroup never checks whether the roster is
already set; for the creator of a DRAFT poll with any stored roster, a
successful chain interaction yields 200 and overwrites groupMembers with
the commitments of the request. -/
theorem claim5_theorem (s : Store) (addr pid : String) (b : CreateGroupBody)
    (f : String → Nat) (gid : Nat) (tx : String) (poll : Poll)
    (hfind : findPoll s pid = some poll)
    (hcr : poll.createdBy = addr)
    (hb : createGroupSchemaValid b = true)
    (hst : poll.status = PollStatus.DRAFT)
    (_hroster : poll.groupMembers ≠ []) :
    createPollGroup s (some addr) pid b f (some (gid, tx)) =
      (200, { s with polls := s.polls.map (fun p => if p.id == pid then
        { p with groupMembers := b.eligibleAddresses.map (fun a => toString (f a)) } else p) }) := by
  simp only [createPollGroup, hb, if_true, hfind]
  rw [if_neg (not_ne_iff.mpr hcr)]
  rw [if_neg (by rw [hst]; exact fun h => PollStatus.noConfusion h)]

/-- C5 witness: the amended theorem applied to the roster-bearing store,
whose stored roster is replaced by the commitment of the new request. -/
theorem claim5_witness :
    createPollGroup storeRoster (some "0xa") "0xp1"
      { eligibleAddresses := ["0xb"] } (fun _ => 22) (some (43, "0xtx2")) =
    (200, { storeRoster with polls := [{ pollRoster with groupMembers := ["22"] }] }) := by
  rw [claim5_theorem storeRoster "0xa" "0xp1" { eligibleAddresses := ["0xb"] }
    (fun _ => 22) 43 "0xtx2" pollRoster (by decide) (by decide) (by decide) (by decide) (by decide)]
  decide

/-- Body of a POST /polls request whose start and end instants are equal
and which otherwise satisfies the schema. -/
def bodyEqTimes : CreatePollBody :=
  { title := "T"
    description := none
    options := [{ id := 0, label := "yes" }, { id := 1, label := "no" }]
    startTime := 100
    endTime := 100 }

/-- C6 counterexample: an authenticated request with startTime equal to
endTime passes validation, answers 201 and inserts the poll row; the claim
requires a 400 rejection with no insert. -/
theorem claim6_counterexample :
    bodyEqTimes.startTime = bodyEqTimes.endTime ∧
    (createPoll emptyStore (some "0xa") bodyEqTimes "0xp9" 5).1 = 201 ∧
    (createPoll emptyStore (some "0xa") bodyEqTimes "0xp9" 5).2.polls =
      [newDraftPoll "0xa" bodyEqTimes "0xp9" 5] := by
  decide

/-- C6 (amended): createPoll compares startTime and endTime in no way: for
every authenticated schema-valid body with endTime not after startTime and
a fresh poll id, the request answers 201 and inserts the draft row. -/
theorem claim6_theorem (s : Store) (addr pid : String) (b : CreatePollBody) (now : Nat)
    (hv : createPollSchemaValid b = true)
    (hfresh : findPoll s pid = none)
    (_htime : b.endTime ≤ b.startTime) :
    createPoll s (some addr) b pid now =
      (201, { s with polls := s.polls ++ [newDraftPoll addr b pid now] }) := by
  simp only [createPoll, hv, if_true, hfresh, Option.isSome_none]
  rw [if_neg (by simp)]

/-- C6 witness: the amended theorem applied to the equal-times body. -/
theorem claim6_witness :
    createPoll emptyStore (some "0xa") bodyEqTimes "0xp9" 5 =
      (201, { emptyStore with polls := emptyStore.polls ++ [newDraftPoll "0xa" bodyEqTimes "0xp9" 5] }) :=
  claim6_theorem emptyStore "0xa" "0xp9" bodyEqTimes 5 (by decide) (by decide) (by decide)

/-- Body of a PUT /polls request renaming the poll. -/
def bodyRename : UpdatePollBody :=
  { title := some "New", description := none, active := none }

/-- C7 counterexample: the creator updating an ACTIVE poll is answered
400, not the 409 Conflict the claim states; the store is unchanged. -/
theorem claim7_counterexample :
    pollActive.createdBy = "0xa" ∧
    pollActive.status ≠ PollStatus.DRAFT ∧
    updatePoll storeActive (some "0xa") "0xp1" bodyRename 9 = (400, storeActive) ∧
    (400 : Nat) ≠ 409 := by
  decide

/-- C7 (amended): an authenticated update by the creator of a poll whose
status is not DRAFT is rejected with HTTP 400 and leaves the store
unchanged. -/
theorem claim7_theorem (s : Store) (addr pid : String) (b : UpdatePollBody) (now : Nat)
    (poll : Poll)
    (hv : updatePollSchemaValid b = true)
    (hfind : findPoll s pid = some poll)
    (hcr : lowerString poll.createdBy = lowerString addr)
    (hst : poll.status ≠ PollStatus.DRAFT) :
    updatePoll s (some addr) pid b now = (400, s) := by
  simp only [updatePoll, hv, if_true, hfind]
  rw [if_neg (not_ne_iff.mpr hcr)]
  rw [if_pos hst]

/-- C7 witness: the amended theorem applied to the ACTIVE poll store. -/
theorem claim7_witness :
    updatePoll storeActive (some "0xa") "0xp1" bodyRename 9 = (400, storeActive) :=
  claim7_theorem storeActive "0xa" "0xp1" bodyRename 9 pollActive
    (by decide) (by decide) (by decide) (by decide)

/-- The Privy record of a user whose linked wallet address is new to the
store. -/
def privyFresh : PrivyUser :=
  { id := "pv1"
    linkedAccounts := [{ type := "wallet", address := "0xAB", fid := none }]
    email := none }

set_option maxRecDepth 10000 in
/-- C8 counterexample: the keccak256 based variant of
addressToIdentityCommitment, at the zero ledger address, returns the raw
digest 0x5380c7b7ae81a58eb98d9c78de4a1fd7fd9535fc953ed2be602daaa41767312a,
which is not below the BN254 scalar field order. -/
theorem claim8_counterexample :
    SNARK_SCALAR_FIELD ≤ addressToIdentityCommitmentKeccak 0 := by
  decide

/-- C8 (amended): the Poseidon based variant of
addressToIdentityCommitment always returns a value strictly below the
BN254 scalar field order, for every address and every behaviour of the
external poseidon1 hash; the keccak256 based variant performs no such
reduction. -/
theorem claim8_theorem (poseidon1 : Nat → Nat) (addr : Nat) :
    addressToIdentityCommitmentPoseidon poseidon1 addr < SNARK_SCALAR_FIELD := by
  simp only [addressToIdentityCommitmentPoseidon]
  split
  next => exact Nat.mod_lt _ (by decide)
  next h => exact Nat.lt_of_not_le h

/-- C9 counterexample: a request carrying a valid bearer token for a new
wallet inserts a user row, so the auth check does access and modify the
user table, contrary to the claim. -/
theorem claim9_counterexample :
    emptyStore.users = [] ∧
    (authMiddleware emptyStore (some "Bearer t1") (some privyFresh) 3).2.users ≠ [] := by
  decide

/-- C9 (amended): requests whose Authorization header is missing, is not a
Bearer header, or fails the external Privy verification are rejected with
the store untouched; but a request whose token verifies upserts a user
row, so for a fresh wallet address the user table grows by one row on
every such request. -/
theorem claim9_theorem (s : Store) (hd hd2 : String) (pu : PrivyUser) (now : Nat)
    (w : PrivyAccount)
    (hw : pu.linkedAccounts.find? (fun a => a.type == "wallet") = some w)
    (hfreshU : ∀ u ∈ s.users, u.address ≠ lowerString w.address)
    (hstart : startsWithBearer hd = true)
    (hnostart : startsWithBearer hd2 = false) :
    (authMiddleware s none (some pu) now = (none, s)) ∧
    (authMiddleware s (some hd2) (some pu) now = (none, s)) ∧
    (authMiddleware s (some hd) none now = (none, s)) ∧
    ((authMiddleware s (some hd) (some pu) now).2.users = s.users ++
      [{ address := lowerString w.address
         privyUserId := some pu.id
         farcasterFid := (pu.linkedAccounts.find? (fun a => a.type == "farcaster")).bind
           (fun a => a.fid)
         email := pu.email
         createdAt := now
         updatedAt := now }]) := by
  have hunone : s.users.find? (fun u => u.address == lowerString w.address) = none :=
    List.find?_eq_none.mpr (fun u hu => by simpa using hfreshU u hu)
  refine ⟨rfl, ?_, ?_, ?_⟩
  · simp only [authMiddleware]
    rw [if_neg (by rw [hnostart]; exact fun h => Bool.noConfusion h)]
  · simp only [authMiddleware]
    rw [if_pos hstart]
  · simp only [authMiddleware]
    rw [if_pos hstart]
    simp only [getOrCreateUser, hw, hunone]

/-- C9 witness: the amended theorem applied to concrete headers, a fresh
Privy wallet and the empty store. -/
theorem claim9_witness :
    (authMiddleware emptyStore none (some privyFresh) 3 = (none, emptyStore)) ∧
    (authMiddleware emptyStore (some "Basic x") (some privyFresh) 3 = (none, emptyStore)) ∧
    (authMiddleware emptyStore (some "Bearer t1") none 3 = (none, emptyStore)) ∧
    ((authMiddleware emptyStore (some "Bearer t1") (some privyFresh) 3).2.users =
      emptyStore.users ++
      [{ address := lowerString "0xAB"
         privyUserId := some privyFresh.id
         farcasterFid := (privyFresh.linkedAccounts.find? (fun a => a.type == "farcaster")).bind
           (fun a => a.fid)
         email := privyFresh.email
         createdAt := 3
         updatedAt := 3 }]) :=
  claim9_theorem emptyStore "Bearer t1" "Basic x" privyFresh 3
    { type := "wallet", address := "0xAB", fid := none }
    (by decide) (by simp [emptyStore]) (by decide) (by decide)

/-- C10: for every poll found by id, getPollResults reports totalVotes as
the number of vote rows referencing the poll while each results entry
counts only the rows whose optionIndex equals that option id. A row whose
optionIndex matches no option is counted in totalVotes and in no entry. -/
theorem claim10_theorem (s : Store) (pollId : String) (poll : Poll)
    (hfind : findPoll s pollId = some poll) :
    getPollResults s pollId = (200, some
      { results := poll.options.map (fun o =>
          { optionId := o.id
            optionLabel := o.label
            votes := ((s.votes.filter (fun v => v.pollId == poll.id)).filter
              (fun v => v.optionIndex == o.id)).length })
        totalVotes := (s.votes.filter (fun v => v.pollId == poll.id)).length }) := by
  have hmap : poll.options.map (fun o =>
      ({ optionId := o.id
         optionLabel := o.label
         votes := ((tallyVotes (initCounts poll.options)
           (s.votes.filter (fun v => v.pollId == poll.id))) o.id).getD 0 } : ResultEntry)) =
    poll.options.map (fun o =>
      ({ optionId := o.id
         optionLabel := o.label
         votes := ((s.votes.filter (fun v => v.pollId == poll.id)).filter
           (fun v => v.optionIndex == o.id)).length } : ResultEntry)) := by
    refine List.map_congr_left (fun o ho => ?_)
    have h0 : initCounts poll.options o.id = some 0 :=
      initCounts_foldl_eq_zero poll.options (fun _ => none) o.id (Or.inr ⟨o, ho, rfl⟩)
    rw [tallyVotes_eq (s.votes.filter (fun v => v.pollId == poll.id))
      (initCounts poll.options) o.id 0 h0]
    simp
  simp only [getPollResults, hfind]
  rw [hmap]

/-- A store holding the sample poll and one stray vote row whose
optionIndex matches no option id of the poll. -/
def storeStray : Store :=
  { polls := [pollA]
    votes := [{ pollId := "0xp1", optionIndex := 7, nullifierHash := "0x5" }]
    users := [] }

/-- C10 witness: on a store holding one vote row whose optionIndex 7
matches no option of the poll, totalVotes is 1 while both per-option
entries are 0, so totalVotes exceeds the sum of the entries. -/
theorem claim10_witness :
    findPoll storeStray "0xp1" = some pollA ∧
    getPollResults storeStray "0xp1" = (200, some
      { results := [{ optionId := 0, optionLabel := "yes", votes := 0 },
                    { optionId := 1, optionLabel := "no", votes := 0 }]
        totalVotes := 1 }) := by
  refine ⟨by decide, ?_⟩
  rw [claim10_theorem storeStray "0xp1" pollA (by decide)]
  decide

end Votara
